import Mathlib

/-!
Verification of the pointer-interaction and tooltip-positioning subsystem of
the charting library: shallow embeddings of `Pointer.findNearestKDPoint`,
`Tooltip.getPosition`, `Pointer.drag`, `Pointer.normalize`, `Pointer.reset`,
`Tooltip.hide`/`Tooltip.refresh`, `Pointer.runPointActions` and
`Pointer.onContainerMouseMove`, with theorems about them.
-/

namespace Pointer

/-- A candidate point as seen by the comparison inside `findNearestKDPoint`
(the Pointer source, lines 257-295): `distX` and `dist` are the distances
computed by the per-series k-d-tree search (`s.searchPoint`), `zIndex` is
`p.series.group.zIndex` (the series visual group is assumed present, which is
the setting of the tie-break rule) and `seriesIndex` is `p.series.index`. -/
structure Cand where
  distX : ℚ
  dist : ℚ
  zIndex : ℚ
  seriesIndex : ℕ
deriving DecidableEq

/-- The value of the inner `sort(p1, p2)` function of `findNearestKDPoint`:

    var isCloserX = p1.distX - p2.distX,
        isCloser = p1.dist - p2.dist,
        isAbove = (p2.series.group && p2.series.group.zIndex) -
            (p1.series.group && p1.series.group.zIndex);
    if (isCloserX !== 0 && shared) result = isCloserX;
    else if (isCloser !== 0) result = isCloser;
    else if (isAbove !== 0) result = isAbove;
    else result = p1.series.index > p2.series.index ? -1 : 1;
-/
def sortValue (shared : Bool) (p1 p2 : Cand) : ℚ :=
  let isCloserX := p1.distX - p2.distX
  let isCloser := p1.dist - p2.dist
  let isAbove := p2.zIndex - p1.zIndex
  if isCloserX ≠ 0 ∧ shared = true then isCloserX
  else if isCloser ≠ 0 then isCloser
  else if isAbove ≠ 0 then isAbove
  else if p1.seriesIndex > p2.seriesIndex then (-1 : ℚ) else 1

/-- One iteration of the `series.forEach` loop in `findNearestKDPoint`:
`point` is the result of `s.searchPoint(e, compareX)` for one series (`none`
when the series found no point), `closest` the accumulator.  The source
replaces `closest` when
`isObject(point, true) && (!isObject(closest, true) || sort(closest, point) > 0)`. -/
def kdStep (shared : Bool) (closest point : Option Cand) : Option Cand :=
  match point, closest with
  | none, _ => closest
  | some _, none => point
  | some p, some c => if 0 < sortValue shared c p then some p else closest

/-- Model of `findNearestKDPoint(series, shared, e)`: fold of `kdStep` over the
per-series search results, in series order, starting from no candidate. -/
def findNearestKDPoint (shared : Bool) (results : List (Option Cand)) : Option Cand :=
  results.foldl (kdStep shared) none

/-- The tie-break order the spec describes: `d` ranks strictly below `c` when
`c` has the higher series-group z-index, or equal z-index and the higher
series index. -/
def lexLt (d c : Cand) : Prop :=
  d.zIndex < c.zIndex ∨ (d.zIndex = c.zIndex ∧ d.seriesIndex < c.seriesIndex)

instance (d c : Cand) : Decidable (lexLt d c) := by
  unfold lexLt; infer_instance

/-- Non-strict form of the tie-break order, matching the replacement test of
the fold when distances are tied. -/
def repl (a b : Cand) : Prop :=
  a.zIndex < b.zIndex ∨ (a.zIndex = b.zIndex ∧ a.seriesIndex ≤ b.seriesIndex)

instance (a b : Cand) : Decidable (repl a b) := by
  unfold repl; infer_instance

lemma repl_refl (a : Cand) : repl a a := Or.inr ⟨rfl, le_refl _⟩

lemma repl_trans {a b c : Cand} (h1 : repl a b) (h2 : repl b c) : repl a c := by
  rcases h1 with h1 | ⟨h1, h1i⟩ <;> rcases h2 with h2 | ⟨h2, h2i⟩
  · exact Or.inl (lt_trans h1 h2)
  · exact Or.inl (h2 ▸ h1)
  · exact Or.inl (h1 ▸ h2)
  · exact Or.inr ⟨h1.trans h2, le_trans h1i h2i⟩

lemma repl_total (a b : Cand) : repl a b ∨ repl b a := by
  rcases lt_trichotomy a.zIndex b.zIndex with h | h | h
  · exact Or.inl (Or.inl h)
  · rcases le_total a.seriesIndex b.seriesIndex with hi | hi
    · exact Or.inl (Or.inr ⟨h, hi⟩)
    · exact Or.inr (Or.inr ⟨h.symm, hi⟩)
  · exact Or.inr (Or.inl h)

/-- When the combined distances are tied (and, in shared mode, the
x-distances too), the replacement test `sort(closest, point) > 0` is exactly
the non-strict tie-break order. -/
lemma sortValue_pos (shared : Bool) (c p : Cand) (hd : c.dist = p.dist)
    (hx : shared = true → c.distX = p.distX) :
    0 < sortValue shared c p ↔ repl c p := by
  unfold sortValue repl
  have hX : ¬ (c.distX - p.distX ≠ 0 ∧ shared = true) := by
    rintro ⟨hne, hsh⟩
    exact hne (by rw [hx hsh]; ring)
  rw [if_neg hX, if_neg (by simp [hd])]
  by_cases hz : p.zIndex - c.zIndex ≠ 0
  · rw [if_pos hz]
    constructor
    · intro h; exact Or.inl (by linarith)
    · rintro (h | ⟨h, _⟩)
      · linarith
      · exact absurd (by rw [h]; ring) hz
  · rw [if_neg hz]
    push_neg at hz
    have hzz : c.zIndex = p.zIndex := by
      have := sub_eq_zero.mp hz; linarith
    by_cases hi : c.seriesIndex > p.seriesIndex
    · rw [if_pos hi]
      constructor
      · intro h; norm_num at h
      · rintro (h | ⟨_, h⟩)
        · exact absurd hzz (ne_of_lt h)
        · omega
    · rw [if_neg hi]
      constructor
      · intro _; exact Or.inr ⟨hzz, le_of_not_lt hi⟩
      · intro _; norm_num

lemma kdStep_some (shared : Bool) (c p : Cand) (hd : c.dist = p.dist)
    (hx : shared = true → c.distX = p.distX) :
    kdStep shared (some c) (some p) = some (if repl c p then p else c) := by
  have hred : kdStep shared (some c) (some p) =
      if 0 < sortValue shared c p then some p else some c := rfl
  rw [hred]
  by_cases h : 0 < sortValue shared c p
  · rw [if_pos h, if_pos ((sortValue_pos shared c p hd hx).mp h)]
  · rw [if_neg h, if_neg (fun hr => h ((sortValue_pos shared c p hd hx).mpr hr))]

/-- Fold invariant: starting from a candidate `c`, the fold over a list of
candidates whose distances all tie with `c` returns a candidate that is a
`repl`-upper bound for `c` and for the whole list. -/
lemma fold_some_max (shared : Bool) (l : List Cand) (c : Cand)
    (hd : ∀ p ∈ l, p.dist = c.dist)
    (hx : shared = true → ∀ p ∈ l, p.distX = c.distX) :
    ∃ m, l.foldl (fun acc p => kdStep shared acc (some p)) (some c) = some m ∧
      (m = c ∨ m ∈ l) ∧ repl c m ∧ ∀ d ∈ l, repl d m := by
  induction l generalizing c with
  | nil =>
      exact ⟨c, rfl, Or.inl rfl, repl_refl c, by simp⟩
  | cons p l ih =>
      have hdp : c.dist = p.dist := (hd p (by simp)).symm
      have hxp : shared = true → c.distX = p.distX :=
        fun hs => ((hx hs) p (by simp)).symm
      have hstep : kdStep shared (some c) (some p) = some (if repl c p then p else c) :=
        kdStep_some shared c p hdp hxp
      by_cases hcp : repl c p
      · rw [if_pos hcp] at hstep
        have hd2 : ∀ q ∈ l, q.dist = p.dist := by
          intro q hq; rw [hd q (by simp [hq]), hdp]
        have hx2 : shared = true → ∀ q ∈ l, q.distX = p.distX := by
          intro hs q hq; rw [hx hs q (by simp [hq]), hxp hs]
        obtain ⟨m, hm, hmem, hub, hall⟩ := ih p hd2 hx2
        refine ⟨m, ?_, ?_, repl_trans hcp hub, ?_⟩
        · simpa [List.foldl_cons, hstep] using hm
        · rcases hmem with h | h
          · exact Or.inr (by simp [h])
          · exact Or.inr (by simp [h])
        · intro d hdmem
          rcases List.mem_cons.mp hdmem with h | h
          · exact h ▸ hub
          · exact hall d h
      · rw [if_neg hcp] at hstep
        have hd2 : ∀ q ∈ l, q.dist = c.dist := fun q hq => hd q (by simp [hq])
        have hx2 : shared = true → ∀ q ∈ l, q.distX = c.distX :=
          fun hs q hq => hx hs q (by simp [hq])
        obtain ⟨m, hm, hmem, hub, hall⟩ := ih c hd2 hx2
        have hpc : repl p c := (repl_total c p).resolve_left hcp
        refine ⟨m, ?_, ?_, hub, ?_⟩
        · simpa [List.foldl_cons, hstep] using hm
        · rcases hmem with h | h
          · exact Or.inl h
          · exact Or.inr (by simp [h])
        · intro d hdmem
          rcases List.mem_cons.mp hdmem with h | h
          · exact h ▸ repl_trans hpc hub
          · exact hall d h

/-- The fold over per-series optional results equals the fold over the found
candidates only (series without a search hit leave the accumulator alone). -/
lemma foldl_kdStep_reduceOption (shared : Bool) (results : List (Option Cand)) :
    ∀ acc, results.foldl (kdStep shared) acc =
      results.reduceOption.foldl (fun a p => kdStep shared a (some p)) acc := by
  induction results with
  | nil => intro acc; rfl
  | cons r rest ih =>
      intro acc
      cases r with
      | none => simpa [List.reduceOption_cons_of_none] using ih acc
      | some p => simpa [List.reduceOption_cons_of_some] using ih (kdStep shared acc (some p))

/-- C1 (amended): over per-series candidates whose combined distance `dist`
all tie — and, when the tooltip is shared, whose `distX` also tie, since in
shared mode a smaller `distX` wins before z-index is considered — with
pairwise distinct series indexes, `findNearestKDPoint` returns the candidate
whose series group has the highest z-index, breaking equal z-index by the
higher series index; the resolver is a pure fold, so repeated calls with
identical input return the same point. -/
theorem findNearestKDPoint_tie_break (shared : Bool) (results : List (Option Cand))
    (c0 : Cand) (rest : List Cand)
    (hred : results.reduceOption = c0 :: rest)
    (hd : ∀ p ∈ results.reduceOption, ∀ q ∈ results.reduceOption, p.dist = q.dist)
    (hx : shared = true → ∀ p ∈ results.reduceOption, ∀ q ∈ results.reduceOption,
      p.distX = q.distX)
    (hidx : ∀ p ∈ results.reduceOption, ∀ q ∈ results.reduceOption,
      p.seriesIndex = q.seriesIndex → p = q) :
    ∃ m, findNearestKDPoint shared results = some m ∧ m ∈ results.reduceOption ∧
      ∀ d ∈ results.reduceOption, d ≠ m → lexLt d m := by
  have hc0 : c0 ∈ results.reduceOption := by rw [hred]; simp
  have hrest : ∀ p ∈ rest, p ∈ results.reduceOption := by
    intro p hp; rw [hred]; simp [hp]
  obtain ⟨m, hm, hmem, hub, hall⟩ :=
    fold_some_max shared rest c0
      (fun p hp => hd p (hrest p hp) c0 hc0)
      (fun hs p hp => hx hs p (hrest p hp) c0 hc0)
  have hrun : findNearestKDPoint shared results = some m := by
    unfold findNearestKDPoint
    rw [foldl_kdStep_reduceOption shared results none, hred]
    simpa [List.foldl_cons, kdStep] using hm
  have hmemro : m ∈ results.reduceOption := by
    rcases hmem with h | h
    · rw [hred, h]; simp
    · exact hrest m h
  refine ⟨m, hrun, hmemro, ?_⟩
  intro d hdmem hne
  have hrepl : repl d m := by
    rw [hred] at hdmem
    rcases List.mem_cons.mp hdmem with h | h
    · exact h ▸ hub
    · exact hall d h
  rcases hrepl with h | ⟨hz, hi⟩
  · exact Or.inl h
  · refine Or.inr ⟨hz, lt_of_le_of_ne hi ?_⟩
    intro hieq
    exact hne (hidx d hdmem m hmemro hieq)

/-- Concrete candidates for the C1 witness: equal `dist` and `distX`,
z-index 5 versus 10. -/
def c1w1 : Cand := ⟨0, 4, 5, 0⟩

def c1w2 : Cand := ⟨0, 4, 10, 1⟩

/-- Witness for C1: at a concrete pair of tied candidates the resolver picks
the one with the higher z-index. -/
theorem findNearestKDPoint_tie_break_witness :
    ([some c1w1, some c1w2] : List (Option Cand)).reduceOption = c1w1 :: [c1w2] ∧
    (∃ m, findNearestKDPoint false [some c1w1, some c1w2] = some m ∧
      m ∈ ([some c1w1, some c1w2] : List (Option Cand)).reduceOption ∧
      ∀ d ∈ ([some c1w1, some c1w2] : List (Option Cand)).reduceOption,
        d ≠ m → lexLt d m) :=
  ⟨by decide,
    findNearestKDPoint_tie_break false [some c1w1, some c1w2] c1w1 [c1w2]
      (by decide) (by decide) (by decide) (by decide)⟩

/-- Concrete candidates for the C1 counterexample: equal `dist`, different
`distX`, the higher z-index on the farther-in-x candidate. -/
def c1A : Cand := ⟨1, 4, 5, 0⟩

def c1B : Cand := ⟨2, 4, 10, 1⟩

/-- C1 counterexample: with a shared tooltip and equal combined distance
`dist` but different `distX`, the resolver returns the candidate with the
smaller `distX`, not the one whose series group has the higher z-index. -/
theorem findNearestKDPoint_shared_counterexample :
    c1A.dist = c1B.dist ∧ c1A.zIndex < c1B.zIndex ∧
    findNearestKDPoint true [some c1A, some c1B] = some c1A := by
  refine ⟨by norm_num [c1A, c1B], by norm_num [c1A, c1B], ?_⟩
  norm_num [findNearestKDPoint, kdStep, sortValue, c1A, c1B]

end Pointer

namespace TooltipPos

/-- The coordinate dictionary `ret` built by `Tooltip.getPosition`
(src/ts/parts/Tooltip.ts, lines 801-961); `none` models an entry the
function never assigned (JS `undefined`). -/
structure Ret where
  x : Option ℚ
  y : Option ℚ
deriving DecidableEq

/-- Dimension tag, the first entry of the `first`/`second` argument arrays. -/
inductive Dim
  | x
  | y
deriving DecidableEq

/-- Assignment `ret[dim] = v`. -/
def Ret.set (r : Ret) : Dim → ℚ → Ret
  | Dim.x, v => { r with x := some v }
  | Dim.y, v => { r with y := some v }

/-- One of the argument arrays `first`/`second` of `getPosition`:
`[dim, outerSize, innerSize, point, min, max]`. -/
structure DimArgs where
  dim : Dim
  outerSize : ℚ
  innerSize : ℚ
  point : ℚ
  min : ℚ
  max : ℚ
deriving DecidableEq

/-- Model of `firstDimension(dim, outerSize, innerSize, point, min, max)`: place the
box along the preferred dimension, or return `false` (here `none`) when
there is no room on either side of the point. -/
def firstDimension (preferFarSide : Bool) (distance h : ℚ) (d : DimArgs)
    (ret : Ret) : Option Ret :=
  let roomLeft := d.innerSize < d.point - distance
  let roomRight := d.point + distance + d.innerSize < d.outerSize
  let alignedLeft := d.point - distance - d.innerSize
  let alignedRight := d.point + distance
  if preferFarSide = true ∧ roomRight then some (ret.set d.dim alignedRight)
  else if preferFarSide = false ∧ roomLeft then some (ret.set d.dim alignedLeft)
  else if roomLeft then
    some (ret.set d.dim (min (d.max - d.innerSize)
      (if alignedLeft - h < 0 then alignedLeft else alignedLeft - h)))
  else if roomRight then
    some (ret.set d.dim (max d.min
      (if d.outerSize < alignedRight + h + d.innerSize then alignedRight
        else alignedRight + h)))
  else none

/-- Model of `secondDimension(dim, outerSize, innerSize, point)`: align along the
other dimension, or return `false` (here `none`) when the point is within
`distance` of either edge. -/
def secondDimension (distance : ℚ) (d : DimArgs) (ret : Ret) : Option Ret :=
  if d.point < distance ∨ d.point > d.outerSize - distance then none
  else if d.point < d.innerSize / 2 then some (ret.set d.dim 1)
  else if d.point > d.outerSize - d.innerSize / 2 then
    some (ret.set d.dim (d.outerSize - d.innerSize - 2))
  else some (ret.set d.dim (d.point - d.innerSize / 2))

/-- The recursive `run` of `getPosition` after `swap(true)` has happened: a
failing `secondDimension` no longer swaps, and a failing `firstDimension`
falls back to `ret.x = ret.y = 0`.  The second component counts the
`swap(true)` calls performed from this state on (always 0 here). -/
def runSwapped (far : Bool) (distance h : ℚ) (first second : DimArgs)
    (ret : Ret) : Ret × ℕ :=
  match firstDimension far distance h first ret with
  | some r1 =>
      match secondDimension distance second r1 with
      | some r2 => (r2, 0)
      | none => (r1, 0)
  | none => (⟨some 0, some 0⟩, 0)

/-- The `run` of `getPosition` before any counted swap: a failure of either
dimension calls `swap(true)` (counted in the second component) and reruns
with the argument arrays exchanged. -/
def run (far : Bool) (distance h : ℚ) (first second : DimArgs)
    (ret : Ret) : Ret × ℕ :=
  match firstDimension far distance h first ret with
  | some r1 =>
      match secondDimension distance second r1 with
      | some r2 => (r2, 0)
      | none =>
          let r := runSwapped far distance h second first r1
          (r.1, r.2 + 1)
  | none =>
      let r := runSwapped far distance h second first ret
      (r.1, r.2 + 1)

/-- The chart fields `getPosition` reads (tooltip not rendered `outside`,
so the outer sizes are the chart sizes). -/
structure Chart where
  inverted : Bool
  chartWidth : ℚ
  chartHeight : ℚ
  plotLeft : ℚ
  plotTop : ℚ
  plotWidth : ℚ
  plotHeight : ℚ
deriving DecidableEq

/-- The point fields `getPosition` reads. -/
structure Pt where
  plotX : ℚ
  plotY : ℚ
  ttBelow : Option Bool
  negative : Bool
  h : ℚ
deriving DecidableEq

/-- The tooltip fields `getPosition` reads (`len` is `this.len`, 0 when
undefined). -/
structure Cfg where
  distance : ℚ
  followPointer : Bool
  len : ℕ
deriving DecidableEq

/-- The `first` array: y dimension over the chart height. -/
def firstArgs (c : Chart) (p : Pt) (boxHeight : ℚ) : DimArgs :=
  ⟨Dim.y, c.chartHeight, boxHeight, p.plotY + c.plotTop, c.plotTop,
    c.plotTop + c.plotHeight⟩

/-- The `second` array: x dimension over the chart width. -/
def secondArgs (c : Chart) (p : Pt) (boxWidth : ℚ) : DimArgs :=
  ⟨Dim.x, c.chartWidth, boxWidth, p.plotX + c.plotLeft, c.plotLeft,
    c.plotLeft + c.plotWidth⟩

/-- Value `preferFarSide = !this.followPointer && pick(point.ttBelow,
!chart.inverted === !!point.negative)`. -/
def preferFarSide (t : Cfg) (c : Chart) (p : Pt) : Bool :=
  !t.followPointer && p.ttBelow.getD ((!c.inverted) == p.negative)

/-- Model of `getPosition(boxWidth, boxHeight, point)` for a tooltip that is not
rendered `outside` the chart, returning the final `ret` dictionary together
with the number of counted `swap(true)` calls.  `h` is
`(chart.inverted && point.h) || 0`, and the initial uncounted `swap()`
happens when the chart is inverted or `this.len > 1`. -/
def getPosition (t : Cfg) (c : Chart) (boxWidth boxHeight : ℚ) (p : Pt) :
    Ret × ℕ :=
  let h : ℚ := if c.inverted then p.h else 0
  let first := firstArgs c p boxHeight
  let second := secondArgs c p boxWidth
  let far := preferFarSide t c p
  if c.inverted = true ∨ 1 < t.len then
    run far t.distance h second first ⟨none, none⟩
  else
    run far t.distance h first second ⟨none, none⟩

lemma runSwapped_snd (far : Bool) (distance h : ℚ) (first second : DimArgs)
    (ret : Ret) : (runSwapped far distance h first second ret).2 = 0 := by
  unfold runSwapped
  cases firstDimension far distance h first ret with
  | none => rfl
  | some r1 =>
      dsimp only
      cases secondDimension distance second r1 with
      | none => rfl
      | some r2 => rfl

lemma run_snd_le_one (far : Bool) (distance h : ℚ) (first second : DimArgs)
    (ret : Ret) : (run far distance h first second ret).2 ≤ 1 := by
  unfold run
  cases firstDimension far distance h first ret with
  | none => simp [runSwapped_snd]
  | some r1 =>
      dsimp only
      cases secondDimension distance second r1 with
      | none => simp [runSwapped_snd]
      | some r2 => simp

/-- C2 (amended): in the default orientation (chart not inverted, single
box), when neither default-side placement along the primary (y) dimension
fits, `getPosition` swaps the two dimensions exactly once, and a second
swap is never attempted on any input.  After the one swap it returns
`(0, 0)` when the new primary (x) dimension does not fit either; when the
new primary fits, the x coordinate is set by the primary placement and the
y coordinate comes from the secondary check — which may leave y unassigned,
so the bounds `0 ≤ x ≤ W - w` and `0 ≤ y ≤ H - h` are not guaranteed. -/
theorem getPosition_swap_once (t : Cfg) (c : Chart) (w bh : ℚ) (p : Pt)
    (hinv : c.inverted = false) (hlen : t.len ≤ 1)
    (hfail : firstDimension (preferFarSide t c p) t.distance 0
      (firstArgs c p bh) ⟨none, none⟩ = none) :
    (getPosition t c w bh p).2 = 1 ∧
    (firstDimension (preferFarSide t c p) t.distance 0 (secondArgs c p w)
        ⟨none, none⟩ = none →
      (getPosition t c w bh p).1 = ⟨some 0, some 0⟩) ∧
    (∀ r1, firstDimension (preferFarSide t c p) t.distance 0 (secondArgs c p w)
        ⟨none, none⟩ = some r1 →
      (getPosition t c w bh p).1 =
        (secondDimension t.distance (firstArgs c p bh) r1).getD r1) ∧
    (∀ t2 c2 w2 bh2 p2, (getPosition t2 c2 w2 bh2 p2).2 ≤ 1) := by
  have hcond : ¬ (c.inverted = true ∨ 1 < t.len) := by
    rw [hinv]; simp; omega
  have hgp : getPosition t c w bh p =
      run (preferFarSide t c p) t.distance 0 (firstArgs c p bh)
        (secondArgs c p w) ⟨none, none⟩ := by
    unfold getPosition
    rw [if_neg hcond, hinv]
    rfl
  have hrun : run (preferFarSide t c p) t.distance 0 (firstArgs c p bh)
      (secondArgs c p w) ⟨none, none⟩ =
      ((runSwapped (preferFarSide t c p) t.distance 0 (secondArgs c p w)
        (firstArgs c p bh) ⟨none, none⟩).1,
       (runSwapped (preferFarSide t c p) t.distance 0 (secondArgs c p w)
        (firstArgs c p bh) ⟨none, none⟩).2 + 1) := by
    unfold run
    rw [hfail]
  refine ⟨?_, ?_, ?_, fun t2 c2 w2 bh2 p2 => ?_⟩
  · rw [hgp, hrun]
    simp [runSwapped_snd]
  · intro hfail2
    rw [hgp, hrun]
    unfold runSwapped
    rw [hfail2]
  · intro r1 hok
    rw [hgp, hrun]
    unfold runSwapped
    rw [hok]
    dsimp only
    cases secondDimension t.distance (firstArgs c p bh) r1 with
    | none => rfl
    | some r2 => rfl
  · unfold getPosition
    by_cases h2 : c2.inverted = true ∨ 1 < t2.len
    · rw [if_pos h2]; exact run_snd_le_one _ _ _ _ _ _
    · rw [if_neg h2]; exact run_snd_le_one _ _ _ _ _ _

/-- Concrete chart for the C2 scenario: 400 by 300 chart, plot area from
(10, 10) of size 380 by 280. -/
def c2Chart : Chart := ⟨false, 400, 300, 10, 10, 380, 280⟩

/-- Tooltip with the default `distance` 16, not following the pointer. -/
def c2Cfg : Cfg := ⟨16, false, 0⟩

/-- A point near the bottom-right corner: chart coordinates (380, 285). -/
def c2Point : Pt := ⟨370, 275, none, false, 0⟩

/-- C2 counterexample: for a 50 by 280 box at a point near the bottom-right
corner where neither default-side placement along the primary (y) dimension
fits, `getPosition` swaps once and the swapped (x) dimension fits, but the
secondary check fails, so the returned dictionary is `x = 314` with `y`
never assigned — neither coordinates within the claimed bounds nor
`(0, 0)`. -/
theorem getPosition_counterexample :
    firstDimension (preferFarSide c2Cfg c2Chart c2Point) c2Cfg.distance 0
      (firstArgs c2Chart c2Point 280) ⟨none, none⟩ = none ∧
    getPosition c2Cfg c2Chart 50 280 c2Point = (⟨some 314, none⟩, 1) := by
  constructor
  · norm_num [firstDimension, firstArgs, preferFarSide, c2Cfg, c2Chart,
      c2Point, Ret.set]
  · norm_num [getPosition, run, runSwapped, firstDimension, secondDimension,
      firstArgs, secondArgs, preferFarSide, c2Cfg, c2Chart, c2Point, Ret.set]

/-- Witness for C2 at the concrete bottom-right scenario. -/
theorem getPosition_swap_once_witness :
    c2Chart.inverted = false ∧ c2Cfg.len ≤ 1 ∧
    firstDimension (preferFarSide c2Cfg c2Chart c2Point) c2Cfg.distance 0
      (firstArgs c2Chart c2Point 280) ⟨none, none⟩ = none ∧
    ((getPosition c2Cfg c2Chart 50 280 c2Point).2 = 1 ∧
     (firstDimension (preferFarSide c2Cfg c2Chart c2Point) c2Cfg.distance 0
        (secondArgs c2Chart c2Point 50) ⟨none, none⟩ = none →
      (getPosition c2Cfg c2Chart 50 280 c2Point).1 = ⟨some 0, some 0⟩) ∧
     (∀ r1, firstDimension (preferFarSide c2Cfg c2Chart c2Point)
        c2Cfg.distance 0 (secondArgs c2Chart c2Point 50) ⟨none, none⟩ =
          some r1 →
      (getPosition c2Cfg c2Chart 50 280 c2Point).1 =
        (secondDimension c2Cfg.distance (firstArgs c2Chart c2Point 280)
          r1).getD r1) ∧
     (∀ t2 c2 w2 bh2 p2, (getPosition t2 c2 w2 bh2 p2).2 ≤ 1)) := by
  have hfail : firstDimension (preferFarSide c2Cfg c2Chart c2Point)
      c2Cfg.distance 0 (firstArgs c2Chart c2Point 280) ⟨none, none⟩ = none := by
    norm_num [firstDimension, firstArgs, preferFarSide, c2Cfg, c2Chart,
      c2Point, Ret.set]
  exact ⟨rfl, by norm_num [c2Cfg], hfail,
    getPosition_swap_once c2Cfg c2Chart 50 280 c2Point rfl
      (by norm_num [c2Cfg]) hfail⟩

end TooltipPos

namespace Drag

/-- The selection-marker rectangle attributes tracked by `Pointer.drag`. -/
structure Marker where
  touch : Bool
  x : ℚ
  y : ℚ
  width : ℚ
  height : ℚ
deriving DecidableEq

/-- Chart fields read by `drag`. -/
structure Chart where
  plotLeft : ℚ
  plotTop : ℚ
  plotWidth : ℚ
  plotHeight : ℚ
  hasCartesianSeries : Bool
  panning : Bool
deriving DecidableEq

/-- Pointer fields read and written by `drag`. -/
structure PState where
  mouseDownX : ℚ
  mouseDownY : ℚ
  zoomX : Bool
  zoomY : Bool
  zoomHor : Bool
  zoomVert : Bool
  selectionMarker : Option Marker
  hasDraggedSq : ℚ
deriving DecidableEq

/-- A mousemove event as seen by `drag`: chart coordinates plus the state
of the configured pan modifier key
(`chartOptions.panKey && e[chartOptions.panKey + 'Key']`). -/
structure Ev where
  chartX : ℚ
  chartY : ℚ
  panKey : Bool
deriving DecidableEq

/-- Model of `Chart.isInsidePlot(plotX, plotY)` (src/ts/parts/Chart.ts, lines
634-647), not inverted. -/
def isInsidePlot (c : Chart) (x y : ℚ) : Bool :=
  decide (0 ≤ x ∧ x ≤ c.plotWidth ∧ 0 ≤ y ∧ y ≤ c.plotHeight)

/-- The clamp of the event x coordinate into the plot area performed at the
top of `drag`. -/
def clampX (c : Chart) (q : ℚ) : ℚ :=
  if q < c.plotLeft then c.plotLeft
  else if c.plotLeft + c.plotWidth < q then c.plotLeft + c.plotWidth
  else q

/-- The clamp of the event y coordinate into the plot area. -/
def clampY (c : Chart) (q : ℚ) : ℚ :=
  if q < c.plotTop then c.plotTop
  else if c.plotTop + c.plotHeight < q then c.plotTop + c.plotHeight
  else q

/-- The squared displacement of the clamped pointer position from the drag
origin.  The source stores `Math.sqrt` of this value in `this.hasDragged`
and tests `hasDragged > 10`; both sides being nonnegative, that test is
exactly `dragDistSq > 100`. -/
def dragDistSq (c : Chart) (s : PState) (e : Ev) : ℚ :=
  (s.mouseDownX - clampX c e.chartX) ^ 2 + (s.mouseDownY - clampY c e.chartY) ^ 2

/-- Model of `Pointer.drag(e)` (the Pointer source, lines 719-789), returning the new
pointer state together with whether `chart.pan` was invoked. -/
def drag (c : Chart) (s : PState) (e : Ev) : PState × Bool :=
  if (s.selectionMarker.map Marker.touch).getD false then (s, false)
  else
    let chartX := clampX c e.chartX
    let chartY := clampY c e.chartY
    let hasDraggedSq := (s.mouseDownX - chartX) ^ 2 + (s.mouseDownY - chartY) ^ 2
    let s1 : PState := { s with hasDraggedSq := hasDraggedSq }
    if 100 < hasDraggedSq then
      let clickedInside :=
        isInsidePlot c (s.mouseDownX - c.plotLeft) (s.mouseDownY - c.plotTop)
      let s2 : PState :=
        if c.hasCartesianSeries && (s.zoomX || s.zoomY) && clickedInside
            && !e.panKey then
          match s1.selectionMarker with
          | none =>
              { s1 with selectionMarker := some ⟨false, c.plotLeft, c.plotTop,
                  (if s.zoomHor then 1 else c.plotWidth),
                  (if s.zoomVert then 1 else c.plotHeight)⟩ }
          | some _ => s1
        else s1
      let s3 : PState :=
        match s2.selectionMarker with
        | some m =>
            if s.zoomHor then
              let size := chartX - s.mouseDownX
              { s2 with selectionMarker := some { m with
                  width := |size|,
                  x := (if 0 < size then 0 else size) + s.mouseDownX } }
            else s2
        | none => s2
      let s4 : PState :=
        match s3.selectionMarker with
        | some m =>
            if s.zoomVert then
              let size := chartY - s.mouseDownY
              { s3 with selectionMarker := some { m with
                  height := |size|,
                  y := (if 0 < size then 0 else size) + s.mouseDownY } }
            else s3
        | none => s3
      (s4, clickedInside && s4.selectionMarker.isNone && c.panning)
    else (s1, false)

/-- Iterate `drag` over a sequence of move events, recording whether any
event invoked `chart.pan`. -/
def dragSeq (c : Chart) : PState → List Ev → PState × Bool
  | s, [] => (s, false)
  | s, e :: es =>
      let r := drag c s e
      let rest := dragSeq c r.1 es
      (rest.1, r.2 || rest.2)

/-- A move event at or below the threshold only records the drag distance:
no marker, no pan. -/
lemma drag_below (c : Chart) (s : PState) (e : Ev)
    (hmark : s.selectionMarker = none) (h : dragDistSq c s e ≤ 100) :
    drag c s e = ({ s with hasDraggedSq := dragDistSq c s e }, false) := by
  have hlt : ¬ (100 < (s.mouseDownX - clampX c e.chartX) ^ 2 +
      (s.mouseDownY - clampY c e.chartY) ^ 2) := by
    unfold dragDistSq at h
    exact not_lt.mpr h
  simp [drag, hmark, hlt, dragDistSq]

/-- A sequence of moves at or below the threshold leaves every pointer field
but the recorded distance unchanged and never pans. -/
lemma dragSeq_below (c : Chart) (s : PState) (es : List Ev)
    (hmark : s.selectionMarker = none)
    (h : ∀ e ∈ es, dragDistSq c s e ≤ 100) :
    (dragSeq c s es).2 = false ∧
    (dragSeq c s es).1 =
      { s with hasDraggedSq := (dragSeq c s es).1.hasDraggedSq } := by
  induction es generalizing s with
  | nil => exact ⟨rfl, rfl⟩
  | cons e es ih =>
      have he : dragDistSq c s e ≤ 100 := h e (by simp)
      have hstep := drag_below c s e hmark he
      have hrest := ih { s with hasDraggedSq := dragDistSq c s e } hmark
        (fun e2 he2 => h e2 (by simp [he2]))
      unfold dragSeq
      rw [hstep]
      exact ⟨by simp [hrest.1], hrest.2⟩

/-- The first event past the threshold, from a marker-free state: the marker
is created exactly under the full source condition, and `chart.pan` runs
exactly when the press was inside the plot, no marker was created, and
panning is enabled. -/
lemma drag_cross (c : Chart) (s : PState) (e : Ev)
    (hmark : s.selectionMarker = none) (h : 100 < dragDistSq c s e) :
    (drag c s e).1.selectionMarker.isSome =
      (c.hasCartesianSeries && (s.zoomX || s.zoomY) &&
        isInsidePlot c (s.mouseDownX - c.plotLeft) (s.mouseDownY - c.plotTop)
        && !e.panKey) ∧
    (drag c s e).2 =
      (isInsidePlot c (s.mouseDownX - c.plotLeft) (s.mouseDownY - c.plotTop)
        && !(c.hasCartesianSeries && (s.zoomX || s.zoomY) &&
          isInsidePlot c (s.mouseDownX - c.plotLeft)
            (s.mouseDownY - c.plotTop) && !e.panKey)
        && c.panning) := by
  have hlt : 100 < (s.mouseDownX - clampX c e.chartX) ^ 2 +
      (s.mouseDownY - clampY c e.chartY) ^ 2 := by
    unfold dragDistSq at h
    exact h
  by_cases hcond : (c.hasCartesianSeries && (s.zoomX || s.zoomY) &&
      isInsidePlot c (s.mouseDownX - c.plotLeft) (s.mouseDownY - c.plotTop)
      && !e.panKey) = true
  · simp only [drag, hmark, Option.map_none', Option.getD_none,
      Bool.false_eq_true, if_false, if_pos hlt, hcond, if_true]
    cases hzh : s.zoomHor <;> cases hzv : s.zoomVert <;>
      simp [hzh, hzv, hcond]
  · have hcond2 : (c.hasCartesianSeries && (s.zoomX || s.zoomY) &&
        isInsidePlot c (s.mouseDownX - c.plotLeft) (s.mouseDownY - c.plotTop)
        && !e.panKey) = false := by
      revert hcond
      cases c.hasCartesianSeries && (s.zoomX || s.zoomY) &&
        isInsidePlot c (s.mouseDownX - c.plotLeft) (s.mouseDownY - c.plotTop)
        && !e.panKey <;> simp
    simp only [drag, hmark, Option.map_none', Option.getD_none,
      Bool.false_eq_true, if_false, if_pos hlt, hcond2]
    simp [hcond2]

/-- C3 (amended): while the (plot-area-clamped) displacement from the drag
origin stays at or below 10px — squared displacement at or below 100 —
`drag` never creates a selection marker and never calls `chart.pan`; the
first event whose displacement crosses 10px creates the marker exactly when
the chart has Cartesian series, zoom is enabled on an axis, the press was
inside the plot area and no pan modifier key is held, and otherwise calls
`chart.pan` exactly when the press was inside the plot area and panning is
enabled. -/
theorem drag_threshold (c : Chart) (s0 : PState) (es : List Ev) (e1 : Ev)
    (hmark : s0.selectionMarker = none)
    (hseq : ∀ e ∈ es, dragDistSq c s0 e ≤ 100)
    (hcross : 100 < dragDistSq c s0 e1) :
    (dragSeq c s0 es).2 = false ∧
    (dragSeq c s0 es).1.selectionMarker = none ∧
    (drag c (dragSeq c s0 es).1 e1).1.selectionMarker.isSome =
      (c.hasCartesianSeries && (s0.zoomX || s0.zoomY) &&
        isInsidePlot c (s0.mouseDownX - c.plotLeft)
          (s0.mouseDownY - c.plotTop) && !e1.panKey) ∧
    (drag c (dragSeq c s0 es).1 e1).2 =
      (isInsidePlot c (s0.mouseDownX - c.plotLeft) (s0.mouseDownY - c.plotTop)
        && !(c.hasCartesianSeries && (s0.zoomX || s0.zoomY) &&
          isInsidePlot c (s0.mouseDownX - c.plotLeft)
            (s0.mouseDownY - c.plotTop) && !e1.panKey)
        && c.panning) := by
  obtain ⟨hpan, hst⟩ := dragSeq_below c s0 es hmark hseq
  have hm1 : (dragSeq c s0 es).1.selectionMarker = none := by
    rw [hst]; exact hmark
  have hd1 : dragDistSq c (dragSeq c s0 es).1 e1 = dragDistSq c s0 e1 := by
    rw [hst]; rfl
  obtain ⟨hiso, hp⟩ := drag_cross c (dragSeq c s0 es).1 e1 hm1 (hd1 ▸ hcross)
  refine ⟨hpan, hm1, ?_, ?_⟩
  · rw [hiso, hst]
  · rw [hp, hst]

/-- Concrete first scenario for the C3 counterexample: zoom enabled, press
inside the plot, no pan key, but the chart has no Cartesian series. -/
def c3ChartA : Chart := ⟨0, 0, 100, 100, false, false⟩

def c3StateA : PState := ⟨50, 50, true, false, true, false, none, 0⟩

def c3EvA : Ev := ⟨70, 70, false⟩

/-- Concrete second scenario: panning enabled and no marker, displacement
past the threshold, but the press was outside the plot area. -/
def c3ChartB : Chart := ⟨0, 0, 100, 100, true, true⟩

def c3StateB : PState := ⟨200, 50, false, false, false, false, none, 0⟩

def c3EvB : Ev := ⟨150, 50, false⟩

/-- C3 counterexample.  First input: the displacement crosses 10px, zoom is
enabled on an axis, the drag started inside the plot area and no pan
modifier is held, yet no selection marker is created (the chart has no
Cartesian series) and no pan happens.  Second input: the displacement
crosses 10px, panning is enabled and no selection marker exists, yet
`chart.pan` is not called (the press was outside the plot area). -/
theorem drag_threshold_counterexample :
    (100 < dragDistSq c3ChartA c3StateA c3EvA ∧
     c3StateA.zoomX = true ∧
     isInsidePlot c3ChartA (c3StateA.mouseDownX - c3ChartA.plotLeft)
       (c3StateA.mouseDownY - c3ChartA.plotTop) = true ∧
     c3EvA.panKey = false ∧
     (drag c3ChartA c3StateA c3EvA).1.selectionMarker = none ∧
     (drag c3ChartA c3StateA c3EvA).2 = false) ∧
    (100 < dragDistSq c3ChartB c3StateB c3EvB ∧
     c3ChartB.panning = true ∧
     c3StateB.selectionMarker = none ∧
     (drag c3ChartB c3StateB c3EvB).1.selectionMarker = none ∧
     (drag c3ChartB c3StateB c3EvB).2 = false) := by
  constructor
  · refine ⟨?_, rfl, ?_, rfl, ?_, ?_⟩
    · norm_num [dragDistSq, clampX, clampY, c3ChartA, c3StateA, c3EvA]
    · norm_num [isInsidePlot, c3ChartA, c3StateA]
    · norm_num [drag, dragDistSq, clampX, clampY, isInsidePlot, c3ChartA,
        c3StateA, c3EvA]
    · norm_num [drag, dragDistSq, clampX, clampY, isInsidePlot, c3ChartA,
        c3StateA, c3EvA]
  · refine ⟨?_, rfl, rfl, ?_, ?_⟩
    · norm_num [dragDistSq, clampX, clampY, c3ChartB, c3StateB, c3EvB]
    · norm_num [drag, dragDistSq, clampX, clampY, isInsidePlot, c3ChartB,
        c3StateB, c3EvB]
    · norm_num [drag, dragDistSq, clampX, clampY, isInsidePlot, c3ChartB,
        c3StateB, c3EvB]

/-- Witness for C3: a two-event in-threshold sequence followed by a
crossing event that creates the marker. -/
def c3ChartW : Chart := ⟨0, 0, 100, 100, true, false⟩

def c3StateW : PState := ⟨50, 50, true, false, true, false, none, 0⟩

theorem drag_threshold_witness :
    c3StateW.selectionMarker = none ∧
    (∀ e ∈ [(⟨53, 54, false⟩ : Ev), ⟨44, 42, false⟩],
      dragDistSq c3ChartW c3StateW e ≤ 100) ∧
    100 < dragDistSq c3ChartW c3StateW ⟨70, 70, false⟩ ∧
    ((dragSeq c3ChartW c3StateW [⟨53, 54, false⟩, ⟨44, 42, false⟩]).2 = false ∧
     (dragSeq c3ChartW c3StateW
        [⟨53, 54, false⟩, ⟨44, 42, false⟩]).1.selectionMarker = none ∧
     (drag c3ChartW (dragSeq c3ChartW c3StateW
        [⟨53, 54, false⟩, ⟨44, 42, false⟩]).1
        ⟨70, 70, false⟩).1.selectionMarker.isSome =
      (c3ChartW.hasCartesianSeries && (c3StateW.zoomX || c3StateW.zoomY) &&
        isInsidePlot c3ChartW (c3StateW.mouseDownX - c3ChartW.plotLeft)
          (c3StateW.mouseDownY - c3ChartW.plotTop) &&
        !(⟨70, 70, false⟩ : Ev).panKey) ∧
     (drag c3ChartW (dragSeq c3ChartW c3StateW
        [⟨53, 54, false⟩, ⟨44, 42, false⟩]).1 ⟨70, 70, false⟩).2 =
      (isInsidePlot c3ChartW (c3StateW.mouseDownX - c3ChartW.plotLeft)
          (c3StateW.mouseDownY - c3ChartW.plotTop)
        && !(c3ChartW.hasCartesianSeries &&
          (c3StateW.zoomX || c3StateW.zoomY) &&
          isInsidePlot c3ChartW (c3StateW.mouseDownX - c3ChartW.plotLeft)
            (c3StateW.mouseDownY - c3ChartW.plotTop) &&
          !(⟨70, 70, false⟩ : Ev).panKey)
        && c3ChartW.panning)) := by
  have hseq : ∀ e ∈ [(⟨53, 54, false⟩ : Ev), ⟨44, 42, false⟩],
      dragDistSq c3ChartW c3StateW e ≤ 100 := by
    intro e he
    simp only [List.mem_cons, List.mem_singleton, List.not_mem_nil,
      or_false] at he
    rcases he with he | he <;> subst he <;>
      norm_num [dragDistSq, clampX, clampY, c3ChartW, c3StateW]
  have hcross : 100 < dragDistSq c3ChartW c3StateW ⟨70, 70, false⟩ := by
    norm_num [dragDistSq, clampX, clampY, c3ChartW, c3StateW]
  exact ⟨rfl, hseq, hcross,
    drag_threshold c3ChartW c3StateW [⟨53, 54, false⟩, ⟨44, 42, false⟩]
      ⟨70, 70, false⟩ rfl hseq hcross⟩

end Drag

namespace Norm

/-- A document position, as carried by an event or by a touch entry. -/
structure Touch where
  pageX : ℚ
  pageY : ℚ
deriving DecidableEq

/-- The fields of a raw browser event that `Pointer.normalize` reads and
writes.  `touches = none` models an event without a `touches` property (a
plain mouse event); `touches = some []` a touch event whose `touches` list
is empty.  `chartX`/`chartY` are the Highcharts properties that `normalize`
writes; they are absent (`none`) on a raw event. -/
structure EventData where
  pageX : ℚ
  pageY : ℚ
  touches : Option (List Touch)
  changedTouches : List Touch
  chartX : Option ℤ
  chartY : Option ℤ
deriving DecidableEq

/-- The event heap: object identity is a numeric id, mutation is an update
at an id. -/
abbrev Heap : Type := ℕ → EventData

/-- The cached chart offset (`offset(this.chart.container)`). -/
structure Offset where
  left : ℚ
  top : ℚ
deriving DecidableEq

/-- JS `Math.round`: round half toward positive infinity. -/
def jsRound (q : ℚ) : ℤ := ⌊q + 1 / 2⌋

/-- The `ePos` selection at the top of `normalize`:
`e.touches ? (e.touches.length ? e.touches.item(0) : e.changedTouches[0]) : e`.
`none` is the JS crash case (`changedTouches[0]` is undefined and its
`pageX` is read). -/
def ePos (d : EventData) : Option Touch :=
  match d.touches with
  | some (t :: _) => some t
  | some [] => d.changedTouches.head?
  | none => some ⟨d.pageX, d.pageY⟩

/-- Model of `Utilities.extend(a, b)` (Utilities.js is outside src/): copies the own
properties of `b` onto `a` and returns `a` itself.  Here: update the event
at id `i` with the computed `chartX`/`chartY` and return the same id, as
the source doc comment of `normalize` describes ("Takes a browser event
object and extends it with custom Highcharts properties `chartX` and
`chartY`"). -/
def extendEvent (h : Heap) (i : ℕ) (cx cy : ℤ) : Heap × ℕ :=
  (fun j => if j = i then
      { h j with chartX := some cx, chartY := some cy }
    else h j, i)

/-- Model of `Pointer.normalize(e, chartPosition)` with a provided cached offset (the
Pointer source, lines 198-214): pick the position source per the touch rule,
then extend the event with the rounded chart-relative coordinates.  `none`
models the JS crash when a touch event has no touch entries at all. -/
def normalize (h : Heap) (i : ℕ) (chartPosition : Offset) :
    Option (Heap × ℕ) :=
  match ePos (h i) with
  | none => none
  | some p => some (extendEvent h i (jsRound (p.pageX - chartPosition.left))
      (jsRound (p.pageY - chartPosition.top)))

/-- C4: for an event at document position `(px, py)` and cached offset
`(ox, oy)`, `normalize` yields `chartX = round(px - ox)` and
`chartY = round(py - oy)`, where the position is the first entry of
`touches` when the event has a non-empty `touches` list, else
`changedTouches[0]`, else the event's own coordinates (a plain mouse
event). -/
theorem normalize_round_trip (h0 : Heap) (i : ℕ) (off : Offset) :
    (∀ t ts, (h0 i).touches = some (t :: ts) →
      ∃ h2, normalize h0 i off = some (h2, i) ∧
        (h2 i).chartX = some (jsRound (t.pageX - off.left)) ∧
        (h2 i).chartY = some (jsRound (t.pageY - off.top))) ∧
    (∀ c cs, (h0 i).touches = some [] → (h0 i).changedTouches = c :: cs →
      ∃ h2, normalize h0 i off = some (h2, i) ∧
        (h2 i).chartX = some (jsRound (c.pageX - off.left)) ∧
        (h2 i).chartY = some (jsRound (c.pageY - off.top))) ∧
    ((h0 i).touches = none →
      ∃ h2, normalize h0 i off = some (h2, i) ∧
        (h2 i).chartX = some (jsRound ((h0 i).pageX - off.left)) ∧
        (h2 i).chartY = some (jsRound ((h0 i).pageY - off.top))) := by
  refine ⟨?_, ?_, ?_⟩
  · intro t ts ht
    refine ⟨(extendEvent h0 i (jsRound (t.pageX - off.left))
      (jsRound (t.pageY - off.top))).1, ?_, by simp [extendEvent],
      by simp [extendEvent]⟩
    unfold normalize ePos
    rw [ht]
    rfl
  · intro c cs ht hc
    refine ⟨(extendEvent h0 i (jsRound (c.pageX - off.left))
      (jsRound (c.pageY - off.top))).1, ?_, by simp [extendEvent],
      by simp [extendEvent]⟩
    unfold normalize ePos
    rw [ht, hc]
    rfl
  · intro ht
    refine ⟨(extendEvent h0 i (jsRound ((h0 i).pageX - off.left))
      (jsRound ((h0 i).pageY - off.top))).1, ?_, by simp [extendEvent],
      by simp [extendEvent]⟩
    unfold normalize ePos
    rw [ht]
    rfl

/-- Concrete heap for the C4 witness: a touch event with one touch at a
half-pixel position. -/
def c4Heap : Heap := fun _ => ⟨0, 0, some [⟨33 / 2, 21 / 2⟩], [], none, none⟩

/-- Witness for C4 at a touch event: the coordinates are the JS-rounded
offsets of the first touch, with the half-up rounding visible. -/
theorem normalize_round_trip_witness :
    (c4Heap 3).touches = some [⟨33 / 2, 21 / 2⟩] ∧
    (∃ h2, normalize c4Heap 3 ⟨16, 26⟩ = some (h2, 3) ∧
      (h2 3).chartX = some (jsRound ((33 / 2 : ℚ) - 16)) ∧
      (h2 3).chartY = some (jsRound ((21 / 2 : ℚ) - 26))) ∧
    jsRound ((33 / 2 : ℚ) - 16) = 1 ∧ jsRound ((21 / 2 : ℚ) - 26) = -15 := by
  refine ⟨rfl,
    (normalize_round_trip c4Heap 3 ⟨16, 26⟩).1 ⟨33 / 2, 21 / 2⟩ [] rfl,
    ?_, ?_⟩
  · unfold jsRound
    rw [show (33 / 2 : ℚ) - 16 + 1 / 2 = 1 by norm_num]
    norm_num
  · unfold jsRound
    rw [show (21 / 2 : ℚ) - 26 + 1 / 2 = -15 by norm_num]
    norm_num

/-- C9 (amended): `normalize` extends the raw event object in place with
`chartX` and `chartY` and returns that same object — not a fresh one; every
other field of the event and every other object in the heap are left
unchanged. -/
theorem normalize_in_place (h0 : Heap) (i : ℕ) (off : Offset) (p : Touch)
    (hp : ePos (h0 i) = some p) :
    ∃ h2, normalize h0 i off = some (h2, i) ∧
      h2 i = { h0 i with chartX := some (jsRound (p.pageX - off.left)),
                         chartY := some (jsRound (p.pageY - off.top)) } ∧
      ∀ j, j ≠ i → h2 j = h0 j := by
  refine ⟨(extendEvent h0 i (jsRound (p.pageX - off.left))
    (jsRound (p.pageY - off.top))).1, ?_, by simp [extendEvent], ?_⟩
  · unfold normalize
    rw [hp]
    rfl
  · intro j hj
    simp [extendEvent, hj]

/-- Concrete heap for the C9 theorems: a plain mouse event at (330, 120)
with no `chartX`/`chartY` yet, stored at id 7. -/
def c9Heap : Heap := fun _ => ⟨330, 120, none, [], none, none⟩

/-- C9 counterexample: `normalize` returns the very id it was given — the
returned value is the raw event object itself, mutated in place with
`chartX`/`chartY` — not a new object distinct from the raw event. -/
theorem normalize_in_place_counterexample :
    ∃ h2, normalize c9Heap 7 ⟨16, 26⟩ = some (h2, 7) ∧
      (c9Heap 7).chartX = none ∧
      (h2 7).chartX = some 314 ∧
      h2 7 ≠ c9Heap 7 := by
  refine ⟨(extendEvent c9Heap 7 (jsRound ((330 : ℚ) - 16))
    (jsRound ((120 : ℚ) - 26))).1, rfl, rfl, ?_, ?_⟩
  · show some (jsRound ((330 : ℚ) - 16)) = some 314
    unfold jsRound
    rw [show (330 : ℚ) - 16 + 1 / 2 = 314 + 1 / 2 by norm_num]
    have hfl : ⌊(314 : ℚ) + 1 / 2⌋ = 314 := by
      rw [Int.floor_eq_iff]
      constructor <;> norm_num
    rw [hfl]
  · intro hcontra
    have : ((extendEvent c9Heap 7 (jsRound ((330 : ℚ) - 16))
        (jsRound ((120 : ℚ) - 26))).1 7).chartX = (c9Heap 7).chartX := by
      rw [hcontra]
    simp [extendEvent, c9Heap] at this

/-- Witness for C9 at the concrete mouse event. -/
theorem normalize_in_place_witness :
    ePos (c9Heap 7) = some ⟨330, 120⟩ ∧
    (∃ h2, normalize c9Heap 7 ⟨16, 26⟩ = some (h2, 7) ∧
      h2 7 = { c9Heap 7 with
                 chartX := some (jsRound ((330 : ℚ) - 16)),
                 chartY := some (jsRound ((120 : ℚ) - 26)) } ∧
      ∀ j, j ≠ 7 → h2 j = c9Heap 7) :=
  ⟨rfl, normalize_in_place c9Heap 7 ⟨16, 26⟩ ⟨330, 120⟩ rfl⟩

end Norm

namespace Reset

/-- The per-point fields `Pointer.reset` reads: identity, whether the
series is Cartesian, whether `plotX` is defined, the current visual state,
and the crosshair options of the series axes. -/
structure Pt where
  id : ℕ
  isCartesian : Bool
  plotXDefined : Bool
  state : String
  xCrosshair : Bool
  yCrosshair : Bool
deriving DecidableEq

/-- Tooltip fields `reset` reads. -/
structure Tip where
  shared : Bool
  hideDelay : Option ℚ
deriving DecidableEq

/-- An axis as seen by `reset`: only its crosshair option matters. -/
structure Axis where
  crosshair : Bool
deriving DecidableEq

/-- Chart and pointer state read and written by `reset`. -/
structure ChartState where
  hoverPoint : Option Pt
  hoverPoints : Option (List Pt)
  hoverSeries : Bool
  tooltip : Option Tip
  axes : List Axis
  unDocMouseMove : Bool
  hoverX : Bool
deriving DecidableEq

/-- The side effects `reset` can emit, in order of emission. -/
inductive Eff
  | pointMouseOut (id : ℕ)
  | pointSetState (id : ℕ) (st : String) (move : Bool)
  | seriesMouseOut
  | tooltipHide (delay : ℚ)
  | tooltipRefresh (ids : List ℕ)
  | drawCrosshair (id : ℕ)
  | drawAxisCrosshair (axisIdx : ℕ)
  | hideCrosshair (axisIdx : ℕ)
  | unbindDocMouseMove
deriving DecidableEq

/-- Value `tooltipPoints = tooltip && tooltip.shared ? hoverPoints : hoverPoint`,
as a list (a lone hover point becomes a singleton, as `splat` makes it). -/
def tooltipPoints (s : ChartState) : Option (List Pt) :=
  match s.tooltip with
  | some tp =>
      if tp.shared then s.hoverPoints else s.hoverPoint.map (fun p => [p])
  | none => s.hoverPoint.map (fun p => [p])

/-- The "Just move the tooltip" branch of `Pointer.reset` (source lines
605-631), taken when `allowMove` survives the out-of-plot check: refresh
the tooltip for the tooltipped points, re-apply each point's own current
state, and redraw crosshairs. -/
def resetMoveBranch (s : ChartState) : ChartState × List Eff :=
  match s.tooltip, tooltipPoints s with
  | some tp, some pts =>
      if pts.length ≠ 0 then
        let refreshEff := Eff.tooltipRefresh (pts.map Pt.id)
        if tp.shared && s.hoverPoints.isSome then
          let hps := s.hoverPoints.getD []
          let hps2 := hps.map (fun p => { p with state := p.state })
          ({ s with hoverPoints := some hps2 },
           refreshEff :: hps.flatMap (fun p =>
             Eff.pointSetState p.id p.state true ::
               ((if p.isCartesian && p.xCrosshair then
                   [Eff.drawCrosshair p.id] else []) ++
                (if p.isCartesian && p.yCrosshair then
                   [Eff.drawCrosshair p.id] else []))))
        else
          match s.hoverPoint with
          | some hp =>
              ({ s with hoverPoint := some { hp with state := hp.state } },
               refreshEff :: Eff.pointSetState hp.id hp.state true ::
                 s.axes.enum.filterMap (fun ia =>
                   if ia.2.crosshair then some (Eff.drawAxisCrosshair ia.1)
                   else none))
          | none => (s, [refreshEff])
      else (s, [])
  | _, _ => (s, [])

/-- The "Full reset" branch of `Pointer.reset` (source lines 634-657):
mouse-out on the hover point and series, clear point states, hide the
tooltip, unbind the document mousemove listener, hide all crosshairs, and
null the hover references. -/
def resetFullBranch (delay : Option ℚ) (s : ChartState) :
    ChartState × List Eff :=
  let e1 := match s.hoverPoint with
    | some hp => [Eff.pointMouseOut hp.id]
    | none => []
  let e2 := match s.hoverPoints with
    | some hps => hps.map (fun p => Eff.pointSetState p.id "" false)
    | none => []
  let e3 := if s.hoverSeries then [Eff.seriesMouseOut] else []
  let e4 := match s.tooltip with
    | some tp => [Eff.tooltipHide (delay.getD (tp.hideDelay.getD 500))]
    | none => []
  let e5 := if s.unDocMouseMove then [Eff.unbindDocMouseMove] else []
  let e6 := (List.range s.axes.length).map Eff.hideCrosshair
  let s2 : ChartState :=
    { s with
      hoverPoint := none
      hoverPoints := none
      hoverX := false
      unDocMouseMove := false }
  (s2, e1 ++ e2 ++ e3 ++ e4 ++ e5 ++ e6)

/-- Model of `Pointer.reset(allowMove, delay)` (the Pointer source, lines 591-658),
returning the new state and the list of emitted side effects in order.  The
`allowMove` flag is first cleared when some tooltipped point of a Cartesian
series has `plotX === undefined`. -/
def reset (allowMove : Bool) (delay : Option ℚ) (s : ChartState) :
    ChartState × List Eff :=
  let tps := tooltipPoints s
  let allowMove2 : Bool :=
    if allowMove && tps.isSome then
      (tps.getD []).all (fun p => !(p.isCartesian && !p.plotXDefined))
    else allowMove
  if allowMove2 then resetMoveBranch s else resetFullBranch delay s

/-- C5: a full `reset(false)` leaves `hoverPoint` at `null`, and composing
it with itself gives the same state as a single reset (the model is a total
function, so no run can throw). -/
theorem reset_idempotent (s : ChartState) (delay : Option ℚ) :
    (reset false delay s).1.hoverPoint = none ∧
    (reset false delay ((reset false delay s).1)).1 = (reset false delay s).1 :=
  ⟨rfl, rfl⟩

/-- Classification of the effects the `allowMove` branch may emit: tooltip
refresh/move, a point `setState` into its own current state, and crosshair
redraws only. -/
def Eff.moveOnly : Eff → Bool
  | Eff.tooltipRefresh _ => true
  | Eff.pointSetState _ _ mv => mv
  | Eff.drawCrosshair _ => true
  | Eff.drawAxisCrosshair _ => true
  | _ => false

lemma map_state_id (l : List Pt) :
    l.map (fun p => { p with state := p.state }) = l := by
  induction l with
  | nil => rfl
  | cons p l ih => rw [List.map_cons, ih]

lemma mem_ite_singleton {c : Prop} [Decidable c] {x e : Eff}
    (h : e ∈ (if c then [x] else [])) : e = x := by
  split at h
  · simpa using h
  · simp at h

lemma eta_hoverPoints (s : ChartState) (hps hps2 : List Pt)
    (hhp : s.hoverPoints = some hps)
    (h2 : hps2 = hps.map (fun p => { p with state := p.state })) :
    ({ s with hoverPoints := some hps2 } : ChartState) = s := by
  rw [h2, map_state_id, ← hhp]

lemma eta_hoverPoint (s : ChartState) (hp : Pt)
    (hhp : s.hoverPoint = some hp) :
    ({ s with hoverPoint := some { hp with state := hp.state } } : ChartState)
      = s := by
  have heta : ({ hp with state := hp.state } : Pt) = hp := rfl
  rw [heta, ← hhp]

/-- C6: when `allowMove` is true and every currently-tooltipped point of a
Cartesian series still has a defined `plotX`, `reset(true)` preserves the
whole chart state — `hoverPoint`, `hoverSeries`, `hoverPoints` and every
stored point state — and emits only tooltip-refresh, own-state `setState`
and crosshair-redraw effects: no point or series mouse-out, no tooltip
hide, no unbinding of the document mousemove listener. -/
theorem reset_allowMove_preserves (s : ChartState) (delay : Option ℚ)
    (hin : ∀ p ∈ (tooltipPoints s).getD [],
      p.isCartesian = true → p.plotXDefined = true) :
    (reset true delay s).1 = s ∧
    (∀ e ∈ (reset true delay s).2, Eff.moveOnly e = true) ∧
    (∀ n, Eff.pointMouseOut n ∉ (reset true delay s).2) ∧
    Eff.seriesMouseOut ∉ (reset true delay s).2 ∧
    (∀ q, Eff.tooltipHide q ∉ (reset true delay s).2) ∧
    Eff.unbindDocMouseMove ∉ (reset true delay s).2 := by
  have hmove : reset true delay s = resetMoveBranch s := by
    rcases htp : tooltipPoints s with _ | pts
    · simp [reset, htp]
    · simp only [reset, htp]
      simp
      intro x hx h1 h2
      have h3 := hin x (by rw [htp]; simpa using hx) h1
      rw [h2] at h3
      simp at h3
  have hmain : (resetMoveBranch s).1 = s ∧
      (∀ e ∈ (resetMoveBranch s).2, Eff.moveOnly e = true) := by
    rcases htt : s.tooltip with _ | tp
    · simp [resetMoveBranch, htt]
    · rcases htp : tooltipPoints s with _ | pts
      · simp [resetMoveBranch, htt, htp]
      · by_cases hlen : pts.length = 0
        · simp [resetMoveBranch, htt, htp, hlen]
        · by_cases hsh : (tp.shared && s.hoverPoints.isSome) = true
          · obtain ⟨hps, hhp⟩ := Option.isSome_iff_exists.mp
              (Bool.and_elim_right hsh)
            constructor
            · simp only [resetMoveBranch, htt, htp]
              rw [if_pos (by simpa using hlen), if_pos hsh]
              simp only [hhp, Option.getD_some]
              rw [← htt]
              exact eta_hoverPoints s hps _ hhp rfl
            · intro e he
              simp only [resetMoveBranch, htt, htp] at he
              rw [if_pos (by simpa using hlen), if_pos hsh] at he
              simp only [hhp, Option.getD_some, List.mem_cons,
                List.mem_flatMap, List.mem_append] at he
              rcases he with rfl | ⟨p, hp, he⟩
              · rfl
              · rcases he with rfl | he | he
                · rfl
                · rw [mem_ite_singleton he]; rfl
                · rw [mem_ite_singleton he]; rfl
          · rcases hhp : s.hoverPoint with _ | hp
            · constructor
              · simp [resetMoveBranch, htt, htp, hlen, hsh, hhp]
              · intro e he
                simp only [resetMoveBranch, htt, htp] at he
                rw [if_pos (by simpa using hlen), if_neg (by simpa using hsh),
                  hhp] at he
                simp at he
                rw [he]; rfl
            · constructor
              · simp only [resetMoveBranch, htt, htp]
                rw [if_pos (by simpa using hlen), if_neg (by simpa using hsh),
                  hhp]
                dsimp only
                rw [← htt]
                exact eta_hoverPoint s hp hhp
              · intro e he
                simp only [resetMoveBranch, htt, htp] at he
                rw [if_pos (by simpa using hlen), if_neg (by simpa using hsh),
                  hhp] at he
                simp only [List.mem_cons, List.mem_filterMap] at he
                rcases he with rfl | rfl | ⟨ia, hia, hfe⟩
                · rfl
                · rfl
                · split at hfe
                  · rw [(Option.some_inj.mp hfe).symm]; rfl
                  · simp at hfe
  rw [hmove]
  refine ⟨hmain.1, hmain.2, ?_, ?_, ?_, ?_⟩
  · intro n hmem
    have := hmain.2 _ hmem
    simp [Eff.moveOnly] at this
  · intro hmem
    have := hmain.2 _ hmem
    simp [Eff.moveOnly] at this
  · intro q hmem
    have := hmain.2 _ hmem
    simp [Eff.moveOnly] at this
  · intro hmem
    have := hmain.2 _ hmem
    simp [Eff.moveOnly] at this

/-- Concrete point and chart state for the C6 witness: a hovered Cartesian
point with defined `plotX`, a non-shared tooltip, one crosshair axis, and
the document mousemove listener bound. -/
def c6Pt : Pt := ⟨1, true, true, "hover", true, false⟩

def c6State : ChartState :=
  ⟨some c6Pt, some [c6Pt], true, some ⟨false, none⟩, [⟨true⟩], true, true⟩

/-- Witness for C6 at the concrete hover state. -/
theorem reset_allowMove_preserves_witness :
    (∀ p ∈ (tooltipPoints c6State).getD [],
      p.isCartesian = true → p.plotXDefined = true) ∧
    ((reset true none c6State).1 = c6State ∧
     (∀ e ∈ (reset true none c6State).2, Eff.moveOnly e = true) ∧
     (∀ n, Eff.pointMouseOut n ∉ (reset true none c6State).2) ∧
     Eff.seriesMouseOut ∉ (reset true none c6State).2 ∧
     (∀ q, Eff.tooltipHide q ∉ (reset true none c6State).2) ∧
     Eff.unbindDocMouseMove ∉ (reset true none c6State).2) :=
  ⟨by decide, reset_allowMove_preserves c6State none (by decide)⟩

end Reset

namespace HideTimer

/-- Timer-relevant tooltip state: `hideTimer` is the timer id stored in
`this.hideTimer`, `pending` the pending timers of the host environment
(id and delay), `nextId` the next fresh timer id the host will hand out. -/
structure TState where
  hideTimer : Option ℕ
  isHidden : Bool
  enabled : Bool
  hideDelay : Option ℚ
  nextId : ℕ
  pending : List (ℕ × ℚ)
deriving DecidableEq

/-- Call `H.clearTimeout(this.hideTimer)`: drop that timer from the pending set
(the `hideTimer` field itself is not nulled, as in the source). -/
def clearHideTimer (s : TState) : TState :=
  { s with pending := s.pending.filter (fun x => decide (some x.1 ≠ s.hideTimer)) }

/-- Model of `Tooltip.hide(delay)` (src/ts/parts/Tooltip.ts, lines 700-712): cancel
any previous hide timer, default the delay to `options.hideDelay` then 500,
and — unless already hidden — schedule the hide.  `syncTimeout` (Utilities,
outside src/) runs the callback immediately when the delay is 0 (then no
timer is pending and the tooltip is hidden at once, with `hideTimer`
undefined) and otherwise schedules a fresh timer whose id it returns. -/
def hide (delay : Option ℚ) (s : TState) : TState :=
  let s1 := clearHideTimer s
  let d := delay.getD (s1.hideDelay.getD 500)
  if s1.isHidden then s1
  else if d = 0 then
    { s1 with hideTimer := none, isHidden := true }
  else
    { s1 with
      hideTimer := some s1.nextId
      nextId := s1.nextId + 1
      pending := s1.pending ++ [(s1.nextId, d)] }

/-- The timer bookkeeping of `Tooltip.refresh` (src/ts/parts/Tooltip.ts,
lines 1006-1150): return early when the tooltip is disabled; otherwise
cancel any pending hide timer, then either hide (formatter returned
`false`) or show the label and clear `isHidden`.  The rendering work in
between touches no timer. -/
def refresh (textFalse : Bool) (s : TState) : TState :=
  if s.enabled then
    let s1 := clearHideTimer s
    if textFalse then hide none s1
    else { s1 with isHidden := false }
  else s

/-- The timer invariant: every pending timer is the one registered in
`hideTimer`, timer ids are below the host's next fresh id, and at most one
hide timer is pending. -/
def good (s : TState) : Prop :=
  (∀ x ∈ s.pending, s.hideTimer = some x.1) ∧
  (∀ t, s.hideTimer = some t → t < s.nextId) ∧
  s.pending.length ≤ 1

lemma clearHideTimer_pending (s : TState)
    (hs : ∀ x ∈ s.pending, s.hideTimer = some x.1) :
    s.pending.filter (fun x => decide (some x.1 ≠ s.hideTimer)) = [] := by
  rw [List.filter_eq_nil_iff]
  intro a ha
  simp [hs a ha]

lemma hide_enabled (delay : Option ℚ) (s : TState) :
    (hide delay s).enabled = s.enabled := by
  unfold hide clearHideTimer
  dsimp only
  split
  · rfl
  · split <;> rfl

lemma hide_good (delay : Option ℚ) (s : TState) (hs : good s) :
    good (hide delay s) := by
  obtain ⟨h1, h2, h3⟩ := hs
  have hcl := clearHideTimer_pending s h1
  unfold hide clearHideTimer
  dsimp only
  split
  · exact ⟨by rw [hcl]; simp, fun t ht => h2 t ht, by rw [hcl]; simp⟩
  · split
    · exact ⟨by rw [hcl]; simp, by simp, by rw [hcl]; simp⟩
    · refine ⟨?_, ?_, ?_⟩
      · intro x hx
        rw [hcl] at hx
        simp at hx
        simp [hx]
      · intro t ht
        simp only [Option.some.injEq] at ht
        dsimp only
        omega
      · rw [hcl]
        simp

lemma hide_pending_new (delay : Option ℚ) (s : TState) (hs : good s) :
    ∀ x ∈ (hide delay s).pending,
      s.hideTimer ≠ some x.1 ∧ x.2 = delay.getD (s.hideDelay.getD 500) ∧
      x.1 = s.nextId := by
  obtain ⟨h1, h2, _⟩ := hs
  have hcl := clearHideTimer_pending s h1
  intro x hx
  unfold hide clearHideTimer at hx
  dsimp only at hx
  split at hx
  · rw [hcl] at hx
    simp at hx
  · split at hx
    · rw [hcl] at hx
      simp at hx
    · rw [hcl] at hx
      simp at hx
      have hx1 : x.1 = s.nextId := by rw [hx]
      have hx2 : x.2 = delay.getD (s.hideDelay.getD 500) := by rw [hx]
      refine ⟨?_, hx2, hx1⟩
      intro hcontra
      rw [hx1] at hcontra
      have := h2 _ hcontra
      omega

lemma clear_good (s : TState) (hs : good s) : good (clearHideTimer s) := by
  obtain ⟨h1, h2, _⟩ := hs
  have hcl := clearHideTimer_pending s h1
  unfold clearHideTimer
  refine ⟨?_, h2, ?_⟩
  · dsimp only
    rw [hcl]
    simp
  · dsimp only
    rw [hcl]
    simp

lemma refresh_good (tf : Bool) (s : TState) (hs : good s) :
    good (refresh tf s) := by
  have hcl := clearHideTimer_pending s hs.1
  unfold refresh
  split
  · split
    · exact hide_good none (clearHideTimer s) (clear_good s hs)
    · refine ⟨?_, hs.2.1, ?_⟩
      · simp only [clearHideTimer]
        rw [hcl]
        simp
      · simp only [clearHideTimer]
        rw [hcl]
        simp
  · exact hs

lemma refresh_cancels (tf : Bool) (s : TState) (hs : good s)
    (he : s.enabled = true) :
    ∀ x ∈ s.pending, x ∉ (refresh tf s).pending := by
  have hcl := clearHideTimer_pending s hs.1
  intro x hx
  have hxlt : x.1 < s.nextId := hs.2.1 x.1 (hs.1 x hx)
  unfold refresh
  rw [if_pos he]
  split
  · intro hmem
    have hnew := hide_pending_new none (clearHideTimer s) (clear_good s hs)
      x hmem
    have hid : x.1 = (clearHideTimer s).nextId := hnew.2.2
    simp only [clearHideTimer] at hid
    omega
  · intro hmem
    simp only [clearHideTimer] at hmem
    rw [hcl] at hmem
    simp at hmem

/-- C7: from any state satisfying the single-timer invariant, `hide` and
`refresh` preserve it, so at most one hide timer is ever pending; any timer
left pending by `hide(delay)` is newly scheduled — the previously registered
timer was cancelled first — and carries the delay
`pick(delay, options.hideDelay, 500)`; and `refresh` on an enabled tooltip
cancels every pending hide timer, so a hide scheduled before a refresh
never fires afterwards (last-write-wins, no stacking). -/
theorem hide_refresh_single_timer (s : TState) (delay : Option ℚ) (tf : Bool)
    (hs : good s) :
    good (hide delay s) ∧
    good (refresh tf s) ∧
    (∀ x ∈ (hide delay s).pending,
      s.hideTimer ≠ some x.1 ∧ x.2 = delay.getD (s.hideDelay.getD 500)) ∧
    (s.enabled = true → ∀ x ∈ s.pending, x ∉ (refresh tf s).pending) ∧
    (s.enabled = true →
      ∀ x ∈ (hide delay s).pending,
        x ∉ (refresh tf (hide delay s)).pending) :=
  ⟨hide_good delay s hs, refresh_good tf s hs,
    fun x hx => ⟨(hide_pending_new delay s hs x hx).1,
      (hide_pending_new delay s hs x hx).2.1⟩,
    fun he => refresh_cancels tf s hs he,
    fun he => refresh_cancels tf (hide delay s) (hide_good delay s hs)
      (by rw [hide_enabled]; exact he)⟩

/-- Concrete state for the C7 witness: one pending hide timer with id 0,
tooltip visible and enabled, no `hideDelay` option set. -/
def c7State : TState := ⟨some 0, false, true, none, 1, [(0, 500)]⟩

/-- Witness for C7 at the concrete single-pending-timer state. -/
theorem hide_refresh_single_timer_witness :
    good c7State ∧
    (good (hide none c7State) ∧
     good (refresh false c7State) ∧
     (∀ x ∈ (hide none c7State).pending,
       c7State.hideTimer ≠ some x.1 ∧
       x.2 = (none : Option ℚ).getD (c7State.hideDelay.getD 500)) ∧
     (c7State.enabled = true →
       ∀ x ∈ c7State.pending, x ∉ (refresh false c7State).pending) ∧
     (c7State.enabled = true →
       ∀ x ∈ (hide none c7State).pending,
         x ∉ (refresh false (hide none c7State)).pending)) :=
  ⟨⟨by decide, by decide, by decide⟩,
    hide_refresh_single_timer c7State none false ⟨by decide, by decide, by decide⟩⟩

end HideTimer

namespace RPA

/-- A point record in the point store: the back-reference to its series
(`undefined` once the point was destroyed, #7127) and its visual state. -/
structure PtI where
  seriesId : Option ℕ
  state : String
deriving DecidableEq

/-- The point store: association list from point id to record. -/
abbrev Store : Type := List (ℕ × PtI)

/-- Look a point up by id. -/
def getPt (st : Store) (i : ℕ) : Option PtI := st.lookup i

/-- Call `point.setState(v)` as a store update. -/
def setPtState (st : Store) (i : ℕ) (v : String) : Store :=
  st.map (fun x => if x.1 = i then (x.1, { x.2 with state := v }) else x)

/-- Chart fields `runPointActions` reads and writes. -/
structure RChart where
  store : Store
  hoverPointId : Option ℕ
  hoverPointsIds : Option (List ℕ)
  hoverSeriesId : Option ℕ
  tooltipEnabled : Bool
  tooltipHidden : Bool
  shared : Bool
  docMouseMoveBound : Bool
deriving DecidableEq

/-- The hover data resolved by `getHoverData` for this pass. -/
structure HoverData where
  hoverPoint : Option ℕ
  points : List ℕ
  hoverSeries : ℕ
  noSharedTooltip : Bool
  followPointer : Bool
deriving DecidableEq

/-- The side effects of one `runPointActions` pass, in order. -/
inductive REff
  | setStateNormal (id : ℕ)
  | seriesMouseOver (id : ℕ)
  | setInactive
  | setStateHover (id : ℕ)
  | pointMouseOut (id : ℕ)
  | pointMouseOver (id : ℕ)
  | tooltipRefresh (ids : List ℕ)
  | tooltipMove
  | bindDocMouseMove
  | crosshairPass
deriving DecidableEq

/-- The store as it stands at the liveness check (`if (!hoverPoint.series)
return;`): after clearing the state of points leaving the hover set,
hover-stating the new points, and firing `mouseOut` on the previous hover
point — whose user event handlers (`handler`) may mutate the store, e.g.
destroy the resolved point. -/
def preludeStore (handler : Store → Store) (c : RChart) (hd : HoverData) :
    Store :=
  let olds := c.hoverPointsIds.getD []
  let st1 := olds.foldl
    (fun acc i => if hd.points.contains i then acc else setPtState acc i "")
    c.store
  let st2 := hd.points.foldl (fun acc i => setPtState acc i "hover") st1
  if c.hoverPointId.isSome then handler st2 else st2

/-- The effects emitted before the liveness check. -/
def preludeEffs (c : RChart) (hd : HoverData) : List REff :=
  ((c.hoverPointsIds.getD []).filter
      (fun i => !hd.points.contains i)).map REff.setStateNormal ++
  (if c.hoverSeriesId ≠ some hd.hoverSeries then
    [REff.seriesMouseOver hd.hoverSeries] else []) ++
  [REff.setInactive] ++
  hd.points.map REff.setStateHover ++
  (match c.hoverPointId with
   | some old => [REff.pointMouseOut old]
   | none => [])

/-- Model of `Pointer.runPointActions(e, p)` (the Pointer source, lines 439-540),
with the resolved hover data given (`getHoverData`'s result) and the user
event handlers of the `mouseOut` fire abstracted as `handler`.  Returns the
new chart state and the emitted effects. -/
def runPointActions (handler : Store → Store) (c : RChart)
    (hd : HoverData) : RChart × List REff :=
  let tailEffs : List REff :=
    (if !c.docMouseMoveBound then [REff.bindDocMouseMove] else []) ++
    [REff.crosshairPass]
  match hd.hoverPoint with
  | some hp =>
      if some hp ≠ c.hoverPointId ∨
          (c.tooltipEnabled = true ∧ c.tooltipHidden = true) then
        let st3 := preludeStore handler c hd
        if (getPt st3 hp).bind PtI.seriesId = none then
          ({ c with store := st3 }, preludeEffs c hd)
        else
          let useShared := c.shared && !hd.noSharedTooltip
          let refreshEffs := if c.tooltipEnabled then
            [REff.tooltipRefresh (if useShared then hd.points else [hp])]
            else []
          ({ c with
              store := st3
              hoverPointId := some hp
              hoverPointsIds := some hd.points
              docMouseMoveBound := true },
            preludeEffs c hd ++ [REff.pointMouseOver hp] ++ refreshEffs ++
              tailEffs)
      else
        let moveEffs := if hd.followPointer && c.tooltipEnabled &&
            !c.tooltipHidden then [REff.tooltipMove] else []
        ({ c with docMouseMoveBound := true }, moveEffs ++ tailEffs)
  | none =>
      let moveEffs := if hd.followPointer && c.tooltipEnabled &&
          !c.tooltipHidden then [REff.tooltipMove] else []
      ({ c with docMouseMoveBound := true }, moveEffs ++ tailEffs)

/-- The effect kinds that may appear before the liveness check. -/
def REff.isPrelude : REff → Bool
  | REff.setStateNormal _ => true
  | REff.seriesMouseOver _ => true
  | REff.setInactive => true
  | REff.setStateHover _ => true
  | REff.pointMouseOut _ => true
  | _ => false

lemma mem_ite_single {α : Type} {c : Prop} [Decidable c] {x e : α}
    (h : e ∈ (if c then [x] else [])) : e = x := by
  split at h
  · simpa using h
  · simp at h

lemma preludeEffs_isPrelude (c : RChart) (hd : HoverData) :
    ∀ e ∈ preludeEffs c hd, REff.isPrelude e = true := by
  intro e he
  unfold preludeEffs at he
  simp only [List.mem_append, List.mem_map] at he
  rcases he with (((hA | hB) | hC) | hD) | hE
  · obtain ⟨i, _, rfl⟩ := hA
    rfl
  · rw [mem_ite_single hB]
    rfl
  · simp at hC
    rw [hC]
    rfl
  · obtain ⟨i, _, rfl⟩ := hD
    rfl
  · revert hE
    cases c.hoverPointId with
    | none => intro hE; simp at hE
    | some old =>
        intro hE
        simp at hE
        rw [hE]
        rfl

/-- C8: when the reconciliation branch is taken and the resolved hover
point has lost its series back-reference by the time of the liveness check
(destroyed by a side effect of the earlier steps), `runPointActions`
returns at once: the emitted effects are exactly the pre-check ones — so no
`mouseOver` is fired on the destroyed point, the tooltip is not refreshed,
no document mousemove listener is bound and no crosshair pass runs — and
the chart's `hoverPoint`/`hoverPoints` are not committed.  The model is a
total function, so the pass cannot throw. -/
theorem runPointActions_abort (handler : Store → Store) (c : RChart)
    (hd : HoverData) (hp : ℕ)
    (hhp : hd.hoverPoint = some hp)
    (hcond : some hp ≠ c.hoverPointId ∨
      (c.tooltipEnabled = true ∧ c.tooltipHidden = true))
    (hdead : (getPt (preludeStore handler c hd) hp).bind PtI.seriesId = none) :
    (runPointActions handler c hd).1.hoverPointId = c.hoverPointId ∧
    (runPointActions handler c hd).1.hoverPointsIds = c.hoverPointsIds ∧
    (runPointActions handler c hd).2 = preludeEffs c hd ∧
    REff.pointMouseOver hp ∉ (runPointActions handler c hd).2 ∧
    (∀ ids, REff.tooltipRefresh ids ∉ (runPointActions handler c hd).2) ∧
    REff.bindDocMouseMove ∉ (runPointActions handler c hd).2 ∧
    REff.crosshairPass ∉ (runPointActions handler c hd).2 := by
  have hred : runPointActions handler c hd =
      ({ c with store := preludeStore handler c hd }, preludeEffs c hd) := by
    unfold runPointActions
    rw [hhp]
    dsimp only
    rw [if_pos hcond, if_pos hdead]
  refine ⟨by rw [hred], by rw [hred], by rw [hred], ?_, ?_, ?_, ?_⟩
  · rw [hred]
    intro hmem
    have := preludeEffs_isPrelude c hd _ hmem
    simp [REff.isPrelude] at this
  · intro ids
    rw [hred]
    intro hmem
    have := preludeEffs_isPrelude c hd _ hmem
    simp [REff.isPrelude] at this
  · rw [hred]
    intro hmem
    have := preludeEffs_isPrelude c hd _ hmem
    simp [REff.isPrelude] at this
  · rw [hred]
    intro hmem
    have := preludeEffs_isPrelude c hd _ hmem
    simp [REff.isPrelude] at this

/-- Concrete handler for the C8 witness: the `mouseOut` event handler
destroys point 5 (clears its series back-reference). -/
def c8Handler : Store → Store :=
  fun st => st.map
    (fun x => if x.1 = 5 then (x.1, { x.2 with seriesId := none }) else x)

/-- Concrete chart for the C8 witness: point 9 is currently hovered, point
5 is the freshly resolved one. -/
def c8Chart : RChart :=
  ⟨[(5, ⟨some 1, ""⟩), (9, ⟨some 2, "hover"⟩)], some 9, some [9], some 2,
    true, false, false, false⟩

def c8Hover : HoverData := ⟨some 5, [5], 1, false, false⟩

/-- Witness for C8 at the concrete destroyed-point pass. -/
theorem runPointActions_abort_witness :
    c8Hover.hoverPoint = some 5 ∧
    (some 5 ≠ c8Chart.hoverPointId ∨
      (c8Chart.tooltipEnabled = true ∧ c8Chart.tooltipHidden = true)) ∧
    (getPt (preludeStore c8Handler c8Chart c8Hover) 5).bind PtI.seriesId
      = none ∧
    ((runPointActions c8Handler c8Chart c8Hover).1.hoverPointId
        = c8Chart.hoverPointId ∧
     (runPointActions c8Handler c8Chart c8Hover).1.hoverPointsIds
        = c8Chart.hoverPointsIds ∧
     (runPointActions c8Handler c8Chart c8Hover).2
        = preludeEffs c8Chart c8Hover ∧
     REff.pointMouseOver 5 ∉ (runPointActions c8Handler c8Chart c8Hover).2 ∧
     (∀ ids, REff.tooltipRefresh ids
        ∉ (runPointActions c8Handler c8Chart c8Hover).2) ∧
     REff.bindDocMouseMove ∉ (runPointActions c8Handler c8Chart c8Hover).2 ∧
     REff.crosshairPass ∉ (runPointActions c8Handler c8Chart c8Hover).2) :=
  ⟨rfl, by decide, by decide,
    runPointActions_abort c8Handler c8Chart c8Hover 5 rfl (by decide)
      (by decide)⟩

end RPA

namespace HoverIdx

/-- A registered chart as seen by the shared document-level dispatch:
`mouseIsDown` holds the event type string set by `dragStart` (`none` models
the `false` set back by `drop`). -/
structure GChart where
  index : ℕ
  mouseIsDown : Option String
deriving DecidableEq

/-- JS truthiness of `chart.mouseIsDown`. -/
def isMouseDown (c : GChart) : Bool :=
  match c.mouseIsDown with
  | some str => decide (str ≠ "")
  | none => false

/-- Lookup `charts[i]`: the registry may hold `undefined` entries (destroyed
charts), and an out-of-range index reads `undefined`. -/
def chartAt (charts : List (Option GChart)) (i : ℕ) : Option GChart :=
  charts.getD i none

/-- The `H.hoverChartIndex` update at the top of `onContainerMouseMove`
(the Pointer source, lines 952-958):

    if (!defined(H.hoverChartIndex) ||
        !charts[H.hoverChartIndex] ||
        !charts[H.hoverChartIndex].mouseIsDown) {
        H.hoverChartIndex = chart.index;
    }
-/
def onContainerMouseMoveIdx (charts : List (Option GChart))
    (hoverChartIndex : Option ℕ) (selfIndex : ℕ) : Option ℕ :=
  match hoverChartIndex with
  | none => some selfIndex
  | some i =>
      match chartAt charts i with
      | none => some selfIndex
      | some ch => if isMouseDown ch then some i else some selfIndex

/-- The chart that `onDocumentMouseUp` dispatches `drop` to:
`charts[H.hoverChartIndex]` (the Pointer source, lines 896-900). -/
def onDocumentMouseUpTarget (charts : List (Option GChart))
    (hoverChartIndex : Option ℕ) : Option GChart :=
  hoverChartIndex.bind (chartAt charts)

/-- C10 (amended): `onContainerMouseMove` reassigns the process-wide hover
chart index only when the chart currently registered at `H.hoverChartIndex`
is absent or not in the mouse-down state; while that chart — the one that
started the drag — is mouse-down, a container mousemove on any chart leaves
the index, and hence the target of the shared document-level mouseup
dispatch, unchanged.  In general the update either keeps the index or sets
it to the moving chart's own index. -/
theorem hoverChartIndex_guard (charts : List (Option GChart))
    (i selfIndex : ℕ) (ch : GChart)
    (hidx : chartAt charts i = some ch)
    (hdown : isMouseDown ch = true) :
    onContainerMouseMoveIdx charts (some i) selfIndex = some i ∧
    onDocumentMouseUpTarget charts
        (onContainerMouseMoveIdx charts (some i) selfIndex) =
      onDocumentMouseUpTarget charts (some i) ∧
    (∀ hci self, onContainerMouseMoveIdx charts hci self = hci ∨
      onContainerMouseMoveIdx charts hci self = some self) := by
  have hkeep : onContainerMouseMoveIdx charts (some i) selfIndex = some i := by
    unfold onContainerMouseMoveIdx
    dsimp only
    rw [hidx]
    dsimp only
    rw [if_pos hdown]
  refine ⟨hkeep, by rw [hkeep], ?_⟩
  intro hci self
  unfold onContainerMouseMoveIdx
  cases hci with
  | none => exact Or.inr rfl
  | some j =>
      dsimp only
      cases chartAt charts j with
      | none => exact Or.inr rfl
      | some ch2 =>
          dsimp only
          by_cases hd : isMouseDown ch2 = true
          · rw [if_pos hd]
            exact Or.inl rfl
          · rw [if_neg hd]
            exact Or.inr rfl

/-- The registry for the C10 concrete scenarios: chart 0 is mouse-down,
charts 1 and 2 are not. -/
def c10Charts : List (Option GChart) :=
  [some ⟨0, some "mousedown"⟩, some ⟨1, none⟩, some ⟨2, none⟩]

/-- C10 counterexample: chart 0 is in the mouse-down state yet a container
mousemove on chart 2, while the hover chart index points at chart 1 (not
mouse-down), reassigns the process-wide index to 2 — so "a drag in progress
on some chart" does not prevent reassignment; only the current hover
chart's mouse-down state does. -/
theorem hoverChartIndex_counterexample :
    (∃ ch, chartAt c10Charts 0 = some ch ∧ isMouseDown ch = true) ∧
    onContainerMouseMoveIdx c10Charts (some 1) 2 = some 2 ∧
    onContainerMouseMoveIdx c10Charts (some 1) 2 ≠ some 1 := by
  refine ⟨⟨⟨0, some "mousedown"⟩, by decide, by decide⟩, by decide, by decide⟩

/-- Witness for C10: while the hover chart itself (chart 0) is mouse-down,
a mousemove on chart 2 leaves the index at 0. -/
theorem hoverChartIndex_guard_witness :
    chartAt c10Charts 0 = some ⟨0, some "mousedown"⟩ ∧
    isMouseDown ⟨0, some "mousedown"⟩ = true ∧
    (onContainerMouseMoveIdx c10Charts (some 0) 2 = some 0 ∧
     onDocumentMouseUpTarget c10Charts
        (onContainerMouseMoveIdx c10Charts (some 0) 2) =
       onDocumentMouseUpTarget c10Charts (some 0) ∧
     (∀ hci self, onContainerMouseMoveIdx c10Charts hci self = hci ∨
       onContainerMouseMoveIdx c10Charts hci self = some self)) :=
  ⟨by decide, by decide,
    hoverChartIndex_guard c10Charts 0 2 ⟨0, some "mousedown"⟩
      (by decide) (by decide)⟩

end HoverIdx
